import Mathlib

/-!
Verification development for the tastypie-dynamodb REST adapter
(`tastypie_dynamodb/resources.py`, `tastypie_dynamodb/fields.py`).

The embedding models the Python 2 source shallowly:

* Python scalar values that flow through the adapter are `DVal`
  (DynamoDB numbers as `Int`, Python booleans — an `int` subclass — as a
  separate constructor so that `str(True) = "True"` is representable,
  and strings).
* Python dicts keyed by strings are association lists with Python's
  update-in-place/append semantics (`pyset`, `pydel`, `pyget`).
* Python exceptions (`TypeError`, `KeyError`, Django's `Http404`,
  tastypie's `NotFound`, ...) are an error type threaded with `Except`.
* The DynamoDB table (boto `Table`) is a list of stored items; `query`,
  `scan` and `batch_get` are evaluated against it.  The store model
  returns complete result pages (`_last_key_seen = None`) and applies
  filter conditions uniformly to any attribute; the claims below are
  about which operations the adapter issues and what it does with the
  rows, not about DynamoDB's own key restrictions.

String primitives are re-implemented over `String.data` with structural
recursion so that closed theorems evaluate by `rfl`/`decide`.
-/

set_option autoImplicit false

/-- Python scalar values handled by the adapter.  `B` is a Python `bool`:
it is an `int` subclass (numerically 1/0, see `dvalNum?`) but stringifies
as `"True"`/`"False"`. -/
inductive DVal where
  | N (n : Int)
  | B (b : Bool)
  | S (s : String)
  deriving Repr, DecidableEq

/-- Python exceptions that the modelled code can raise. -/
inductive PyExc where
  | typeError
  | keyError (k : String)
  | indexError
  | valueError
  | attributeError
  | nameError
  | http404
  | notFound
  | multipleObjectsReturned
  | conditionalCheckFailed
  deriving Repr, DecidableEq

/-! ## Python dict primitives (insertion-ordered association lists) -/

/-- Python `d[k]` as an `Option` (`d.get(k)`). -/
def pyget {α : Type} (d : List (String × α)) (k : String) : Option α :=
  (d.find? (fun p => p.1 = k)).map (fun p => p.2)

/-- Python `k in d`. -/
def pyHas {α : Type} (d : List (String × α)) (k : String) : Bool :=
  (pyget d k).isSome

/-- Python `d[k] = v`: replace in place if the key exists (dict keys are
unique, so at the first occurrence), else append — CPython dict update
semantics. -/
def pyset {α : Type} : List (String × α) → String → α → List (String × α)
  | [], k, v => [(k, v)]
  | p :: t, k, v => if p.1 = k then (k, v) :: t else p :: pyset t k v

/-- Python `del d[k]` (no error when absent; the source always guards with `in`). -/
def pydel {α : Type} (d : List (String × α)) (k : String) : List (String × α) :=
  d.filter (fun p => ¬ p.1 = k)

/-- Python `d.pop(k, default)` split into the popped value and the remaining dict. -/
def pyPop {α : Type} (d : List (String × α)) (k : String) :
    Option α × List (String × α) :=
  (pyget d k, pydel d k)

/-! ## Python string / int primitives (structural, kernel-reducible) -/

/-- Lower-case a string character-wise (ASCII, as the source's keys/values). -/
def strLower (s : String) : String :=
  String.mk (s.data.map Char.toLower)

def digitsToNatAux : List Char → Nat → Option Nat
  | [], acc => some acc
  | c :: cs, acc =>
      if c.isDigit then digitsToNatAux cs (acc * 10 + (c.toNat - 48)) else none

/-- Python `int(s)` on a decimal string (optional leading minus);
anything else is a `ValueError`.  (CPython also strips whitespace; the
requests modelled here carry no padded numerals.) -/
def parseInt (s : String) : Option Int :=
  match s.data with
  | [] => none
  | c :: rest =>
      if c = Char.ofNat 45 then
        match rest with
        | [] => none
        | _ => (digitsToNatAux rest 0).map (fun n => -(n : Int))
      else (digitsToNatAux (c :: rest) 0).map (fun n => (n : Int))

/-- Numeric view of a value: Python `bool` is an `int` subclass. -/
def dvalNum? : DVal → Option Int
  | .N n => some n
  | .B b => some (if b then 1 else 0)
  | .S _ => none

/-- Python `==` on the values the adapter compares (numbers compare
numerically across `int`/`bool`; strings compare as strings; a number
never equals a string). -/
def dvalEqB (a b : DVal) : Bool :=
  match dvalNum? a, dvalNum? b with
  | some x, some y => x = y
  | none, none =>
      match a, b with
      | .S s, .S t => s = t
      | _, _ => false
  | _, _ => false

/-- Python 2 `<` between adapter values: numbers compare numerically and
sort before strings (cross-type comparison by type name), strings
compare lexicographically. -/
def dvalLt (a b : DVal) : Bool :=
  match dvalNum? a, dvalNum? b with
  | some x, some y => x < y
  | some _, none => true
  | none, some _ => false
  | none, none =>
      match a, b with
      | .S s, .S t => s < t
      | _, _ => false

/-- Python truthiness of the values the adapter tests. -/
def pyTruthy : DVal → Bool
  | .N n => n ≠ 0
  | .B b => b
  | .S s => s ≠ ""

/-- Truthiness of an optional value (`None` is falsy). -/
def truthyOpt : Option DVal → Bool
  | none => false
  | some v => pyTruthy v

/-- Python `str(v)` (`'%s' % v`). -/
def pyStr : DVal → String
  | .N n => toString n
  | .B b => if b then "True" else "False"
  | .S s => s

/-- Python `int(v)`; fails with `ValueError` on a non-numeric string and
is the identity on numbers (`int(True) = 1`). -/
def pyToInt : DVal → Except PyExc Int
  | .N n => .ok n
  | .B b => .ok (if b then 1 else 0)
  | .S s =>
      match parseInt s with
      | some n => .ok n
      | none => .error .valueError

/-- Conversion `int(v)` returning a number value. -/
def pyIntD (v : DVal) : Except PyExc DVal :=
  (pyToInt v).map (fun n => .N n)

/-- Conversion `str(v)` returning a string value. -/
def pyStrD (v : DVal) : DVal := .S (pyStr v)

/-- Python `v[-1]`: last character of a string (`IndexError` when empty,
`TypeError` on a non-string). -/
def pyLastChar : DVal → Except PyExc Char
  | .S s =>
      match s.data.getLast? with
      | some c => .ok c
      | none => .error .indexError
  | _ => .error .typeError

/-- Python `v[:-1]` on a string value (identity on non-strings, never reached
on them in the source). -/
def dvalDropLast : DVal → DVal
  | .S s => .S (String.mk (s.data.take (s.data.length - 1)))
  | v => v

/-- Slice `items[:n]` with Python's negative-index semantics. -/
def pyTake {α : Type} (n : Int) (l : List α) : List α :=
  if n < 0 then l.take (l.length - (-n).toNat) else l.take n.toNat

/-- Index of the first occurrence of `pat` inside a character list. -/
def findSub (pat : List Char) : List Char → Option Nat
  | [] => if pat.isEmpty then some 0 else none
  | c :: rest =>
      if pat.isPrefixOf (c :: rest) then some 0
      else (findSub pat rest).map (fun n => n + 1)

/-- Python `sub in s` (substring containment). -/
def strContains (s sub : String) : Bool :=
  (findSub sub.data s.data).isSome

/-- Python `s[:s.find(sub)]`: prefix before the first occurrence of `sub`
(whole string when absent, matching `find = -1` never being hit in the
source because containment is checked first). -/
def strBefore (s sub : String) : String :=
  match findSub sub.data s.data with
  | some n => String.mk (s.data.take n)
  | none => s

/-- Strip a literal suffix, structurally. -/
def chopSuffix (s suf : String) : Option String :=
  if suf.data.isSuffixOf s.data then
    some (String.mk (s.data.take (s.data.length - suf.data.length)))
  else none

/-- First-occurrence deduplication (models iterating the Python set of
selected index fields in parameter order). -/
def dedupAux : List String → List String → List String
  | [], _ => []
  | x :: xs, seen =>
      if seen.contains x then dedupAux xs seen else x :: dedupAux xs (x :: seen)

def dedupKeep (l : List String) : List String := dedupAux l []

/-- Stable insertion sort with a strict comparator (Python's `sorted` /
`list.sort` are stable; `reverse=True` is handled by flipping the
comparator, which preserves stability). -/
def insSortInsert {α : Type} (lt : α → α → Bool) (x : α) : List α → List α
  | [] => [x]
  | y :: ys => if lt x y then x :: y :: ys else y :: insSortInsert lt x ys

def insSortBy {α : Type} (lt : α → α → Bool) : List α → List α
  | [] => []
  | x :: xs => insSortInsert lt x (insSortBy lt xs)

/-- Effectful map over a list in `Except`, failing on the first error
(Python list comprehensions over fallible expressions). -/
def mapE {α β : Type} (f : α → Except PyExc β) : List α → Except PyExc (List β)
  | [] => .ok []
  | x :: xs =>
      match f x, mapE f xs with
      | .ok y, .ok ys => .ok (y :: ys)
      | .error e, _ => .error e
      | _, .error e => .error e

/-! ## Table schema and store model -/

/-- One declared primary-key component (`table_schema` entry with the
boto `data_type` fix applied in `__init__`): attribute name and scalar
type `"N"` or `"S"`. -/
structure KeyField where
  name : String
  dataType : String
  deriving Repr, DecidableEq

/-- One secondary index together with the resource-side metadata the
adapter derives in `__init__`: `attr` is the index's RANGE attribute
(`_fields[0]`), `mapped` the tastypie field name mapped to it
(`_fields[1]`, `None` when no resource field carries the attribute), and
`conv` the `convert` of that resource field (`NumberMixin` → integer,
`StringMixin` → string, plain `ApiField` → identity). -/
inductive ConvKind where
  | toInt
  | toStr
  | ident
  deriving Repr, DecidableEq

structure SecIndex where
  name : String
  attr : String
  mapped : Option String
  conv : ConvKind
  projKeysOnly : Bool
  deriving Repr, DecidableEq

/-- Declared table structure (hash key mandatory, range key optional). -/
structure TableSchema where
  hashKey : KeyField
  rangeKey : Option KeyField
  indexes : List SecIndex
  deriving Repr, DecidableEq

/-- A stored row / wire item: attribute name to scalar value. -/
abbrev Item := List (String × DVal)

/-- The DynamoDB table contents. -/
structure StoreTable where
  rows : List Item
  deriving Repr, DecidableEq

/-- Model of `field.convert(val)` of the mapped resource field (fields.py:
`NumberMixin.convert = int`, `StringMixin.convert = str`, base
`ApiField.convert` is the identity; values here are never `None`). -/
def applyConv : ConvKind → DVal → Except PyExc DVal
  | .toInt, v => pyIntD v
  | .toStr, v => .ok (pyStrD v)
  | .ident, v => .ok v

/-- Values stored in the `dynamo_filter` dict: condition operands,
`[from, to]` lists for `__between`, and the `exclusive_start_key`
sub-dict.  The `index` entry holds the index name as a `.dval .S`. -/
inductive FiltVal where
  | dval (v : DVal)
  | between (lo hi : Int)
  | esk (m : List (String × DVal))
  deriving Repr, DecidableEq

abbrev Filt := List (String × FiltVal)

/-- Does one `attr__op` filter entry hold of a row?  Bookkeeping entries
(`index`, `exclusive_start_key`) restrict nothing; a condition on an
attribute the row lacks does not match. -/
def condHolds (it : Item) (k : String) (v : FiltVal) : Bool :=
  if k = "index" ∨ k = "exclusive_start_key" then true
  else
    match chopSuffix k "__eq" with
    | some attr =>
        match pyget it attr, v with
        | some iv, .dval p => dvalEqB iv p
        | _, _ => false
    | none =>
        match chopSuffix k "__beginswith" with
        | some attr =>
            match pyget it attr, v with
            | some (.S s), .dval (.S pre) => pre.data.isPrefixOf s.data
            | _, _ => false
        | none =>
            match chopSuffix k "__between" with
            | some attr =>
                match pyget it attr, v with
                | some iv, .between lo hi =>
                    match dvalNum? iv with
                    | some n => decide (lo ≤ n ∧ n ≤ hi)
                    | none => false
                | _, _ => false
            | none => false

def itemMatches (filt : Filt) (it : Item) : Bool :=
  filt.all (fun kv => condHolds it kv.1 kv.2)

/-- Option `limit=None` returns everything, `limit=n` at most `n` rows. -/
def applyLimit {α : Type} : Option Int → List α → List α
  | none, l => l
  | some n, l => pyTake n l

/-- Keys-only projection of a row: table hash key, table range key and
the index's RANGE attribute. -/
def restrictKeys (sc : TableSchema) (i : SecIndex) (it : Item) : Item :=
  it.filter (fun kv =>
    kv.1 = sc.hashKey.name ||
    (match sc.rangeKey with
     | some r => kv.1 = r.name
     | none => false) ||
    kv.1 = i.attr)

/-- Model of `table.scan(limit=..., **dynamo_filter)`: filter rows, truncate.
The model returns complete pages (`_last_key_seen = None`). -/
def storeScan (st : StoreTable) (filt : Filt) (limit : Option Int) :
    Except PyExc (List Item) :=
  .ok (applyLimit limit (st.rows.filter (itemMatches filt)))

/-- Model of `table.query(limit=..., reverse=..., **dynamo_filter)`: filter rows;
when an index with keys-only projection is selected the store returns
only the key attributes.  Row order is the storage order — the adapter
re-sorts client-side, and no claim depends on the store's ordering. -/
def storeQuery (sc : TableSchema) (st : StoreTable) (filt : Filt)
    (limit : Option Int) (_reverse : Bool) : Except PyExc (List Item) :=
  let matched := st.rows.filter (itemMatches filt)
  match pyget filt "index" with
  | none => .ok (applyLimit limit matched)
  | some (.dval (.S iname)) =>
      match sc.indexes.find? (fun i => i.name = iname) with
      | some i =>
          .ok (applyLimit limit
            (if i.projKeysOnly then matched.map (restrictKeys sc i) else matched))
      | none => .error .valueError
  | some _ => .error .typeError

/-- Model of `table.batch_get(keys=req)`: the full stored rows whose attributes
match one of the requested key dicts. -/
def storeBatchGet (st : StoreTable) (keys : List (List (String × DVal))) :
    List Item :=
  keys.flatMap (fun key =>
    st.rows.filter (fun r =>
      key.all (fun kv =>
        match pyget r kv.1 with
        | some v => dvalEqB v kv.2
        | none => false)))

/-- Model of `table.get_item(**filt)`; the source detects a missing item via
`not item.values()`, modelled as `none`. -/
def getItemStore (st : StoreTable) (f : List (String × DVal)) : Option Item :=
  st.rows.find? (fun r =>
    f.all (fun kv =>
      match pyget r kv.1 with
      | some v => dvalEqB v kv.2
      | none => false))

def keyNames (sc : TableSchema) : List String :=
  sc.hashKey.name ::
    (match sc.rangeKey with
     | some r => [r.name]
     | none => [])

def sameKeys (sc : TableSchema) (a b : Item) : Bool :=
  (keyNames sc).all (fun k =>
    match pyget a k, pyget b k with
    | some x, some y => dvalEqB x y
    | _, _ => false)

/-- Model of `table.put_item(item, overwrite=...)`: without `overwrite` an
existing item with the same primary keys fails the conditional check;
otherwise the row is replaced. -/
def putItemStore (sc : TableSchema) (st : StoreTable) (item : Item)
    (overwrite : Bool) : Except PyExc StoreTable :=
  if ¬ overwrite ∧ st.rows.any (fun r => sameKeys sc r item) then
    .error .conditionalCheckFailed
  else .ok ⟨(st.rows.filter (fun r => ¬ sameKeys sc r item)) ++ [item]⟩

/-! ## Request parameter preparation (resources.py lines 274-287) -/

/-- Value normalization of lines 281-283: `eval(val.title())` turns a
case-insensitive `"true"`/`"false"` into the Python boolean. -/
def normVal (v : String) : DVal :=
  if strLower v = "true" ∨ strLower v = "false" then .B (strLower v = "true")
  else .S v

def boolNorm (ps : List (String × String)) : List (String × DVal) :=
  ps.map (fun kv => (kv.1, normVal kv.2))

/-- Key lower-casing of lines 276-279: pop each key whose lower-case
differs and re-insert it under the lower-cased key. -/
def lowerKeys (ps : List (String × String)) : List (String × String) :=
  ps.foldl
    (fun acc kv =>
      if strLower kv.1 ≠ kv.1 then pyset (pydel acc kv.1) (strLower kv.1) kv.2
      else acc)
    ps

/-- Lines 274-287: lower-case keys, normalize boolean-looking values,
pop `reverse` (`order_asc = not get_params.pop('reverse', False)`). -/
def prepParams (raw : List (String × String)) : List (String × DVal) × Bool :=
  let ps := boolNorm (lowerKeys raw)
  let (rv, ps) := pyPop ps "reverse"
  (ps, ! truthyOpt rv)

/-- Lines 342-345: `offset_range` with the `int()` wrapped in a bare
`try/except` that silently falls back to `0`. -/
def offsetRangeOf (ps : List (String × DVal)) : Int :=
  match pyToInt ((pyget ps "offset_range").getD (.N 0)) with
  | .ok n => n
  | .error _ => 0

/-! ## Filter building (lines 289-432) -/

/-- Path keyword arguments reaching `get_list` plus the URL bits used by
the `next` link.  `hashKey` is already coerced by `dispatch_detail`;
`rangeKey` is the raw path string. -/
structure Kw where
  hashKey : Option DVal
  rangeKey : Option String
  apiName : String
  resourceName : String
  deriving Repr, DecidableEq

/-- Lines 356-378: range-key handling.  A value of exactly `*` emits
nothing; a trailing `*` emits `__beginswith`; otherwise boolean strings
become 1/0 and numeric range keys are `int()`-coerced into `__eq`.
Note the eager default of `get_params.get(rkey, kwargs['range_key'])`:
when the condition was entered through the query parameter alone, the
missing `range_key` path argument raises `KeyError`. -/
def rangePart (rk : KeyField) (ps : List (String × DVal)) (kwRange : Option String)
    (filt : Filt) : Except PyExc Filt :=
  if (pyget ps rk.name).isSome || kwRange.isSome then do
    let d ← match kwRange with
      | some s => pure (DVal.S s)
      | none => throw (PyExc.keyError "range_key")
    let value := (pyget ps rk.name).getD d
    if value ≠ .S "*" then do
      let c ← pyLastChar value
      if c = Char.ofNat 42 then
        pure (pyset filt (rk.name ++ "__beginswith") (.dval (dvalDropLast value)))
      else do
        let value := match value with
          | .S s =>
              if strLower s = "true" ∨ strLower s = "false" then
                (if strLower s = "false" then DVal.N 0 else DVal.N 1)
              else .S s
          | v => v
        let value ← if rk.dataType = "N" then pyIntD value else pure value
        pure (pyset filt (rk.name ++ "__eq") (.dval value))
    else pure filt
  else pure filt

/-- The keys of `get_params` containing `'__from'` (line 390). -/
def betweenKeys (ps : List (String × DVal)) : List String :=
  (ps.map (fun p => p.1)).filter (fun k => strContains k "__from")

/-- Lines 390-408, one `__from` key.  The `int()` conversions live in a
bare `try/except` whose handler only prints, so a conversion failure
leaves the filter untouched.  When the attribute is not the range key
and some index carries it, the predicate is re-keyed to the index's
attribute and the index selected. -/
def betweenStep (rkName : String) (idxs : List SecIndex)
    (ps : List (String × DVal)) (filt : Filt) (fromKey : String) : Filt :=
  let param := strBefore fromKey "__from"
  match pyget ps (param ++ "__to") with
  | none => filt
  | some tv =>
      if pyTruthy tv then
        let parsed : Except PyExc (Int × Int) := do
          let fv ← match pyget ps (param ++ "__from") with
            | some v => pure v
            | none => throw (PyExc.keyError (param ++ "__from"))
          let f ← pyToInt fv
          let t ← pyToInt tv
          pure (f, t)
        match parsed with
        | .error _ => filt
        | .ok (f, t) =>
            let filt := pyset filt (param ++ "__between") (.between f t)
            if param ≠ rkName then
              match idxs.find? (fun i => param = i.attr ∨ some param = i.mapped) with
              | some i =>
                  pyset
                    (pyset (pydel filt (param ++ "__between"))
                      (i.attr ++ "__between") (.between f t))
                    "index" (.dval (.S i.name))
              | none => filt
            else filt
      else filt

def betweenPart (rkName : String) (idxs : List SecIndex)
    (ps : List (String × DVal)) (filt : Filt) : Filt :=
  (betweenKeys ps).foldl (betweenStep rkName idxs ps) filt

/-- Line 411: `set(itertools.chain(*self._meta.indexes.values()))`. -/
def allIdxFields (idxs : List SecIndex) : List String :=
  idxs.foldr
    (fun i acc =>
      i.attr ::
        ((match i.mapped with
          | some m => [m]
          | none => []) ++ acc))
    []

/-- Line 412: parameters naming an indexed field (set intersection,
iterated here in parameter order). -/
def selectedIdxFields (idxs : List SecIndex) (ps : List (String × DVal)) :
    List String :=
  dedupKeep ((ps.map (fun p => p.1)).filter (fun k => (allIdxFields idxs).contains k))

/-- Lines 414-432, one selected field: re-check boolean strings (dead
after line 283's normalization but kept faithfully), convert through the
mapped resource field (`KeyError` when no resource field maps the
attribute), select the index, and emit `__beginswith` for a trailing
`*` or `__eq` otherwise.  The loop variable `index_field` escapes the
loop and the last matched index attribute is remembered
(`index_range_field`). -/
def indexStep (idxs : List SecIndex) (ps : List (String × DVal))
    (st : Filt × Option String × Option String) (f : String) :
    Except PyExc (Filt × Option String × Option String) := do
  let (filt, _, ixRF) := st
  let val := (pyget ps f).getD (.S "")
  let val := match val with
    | .S s =>
        if strLower s = "true" ∨ strLower s = "false" then
          (if strLower s = "false" then DVal.N 0 else DVal.N 1)
        else .S s
    | v => v
  match idxs.find? (fun i => f = i.attr ∨ some f = i.mapped) with
  | none => pure (filt, some f, ixRF)
  | some i => do
      let _ ← match i.mapped with
        | some m => pure m
        | none => throw (PyExc.keyError "None")
      let val ← applyConv i.conv val
      let filt := pyset filt "index" (.dval (.S i.name))
      let isStar ← match val with
        | .S s =>
            match s.data.getLast? with
            | some c => pure (c == Char.ofNat 42)
            | none => throw PyExc.indexError
        | _ => pure false
      let filt :=
        if isStar then pyset filt (i.attr ++ "__beginswith") (.dval (dvalDropLast val))
        else pyset filt (i.attr ++ "__eq") (.dval val)
      pure (filt, some f, some i.attr)

def indexPart (idxs : List SecIndex) (ps : List (String × DVal)) (filt : Filt) :
    Except PyExc (Filt × Option String × Option String) :=
  (selectedIdxFields idxs ps).foldlM (indexStep idxs ps) (filt, none, none)

/-- Everything the filter-building phase (lines 289-432) hands to the
planner and executor. -/
structure BuildOut where
  filt : Filt
  hashFilter : Option DVal
  offsetSpecial : Bool
  offsetRange : Int
  limit : Int
  indexField : Option String
  indexRangeField : Option String
  deriving Repr, DecidableEq

/-- Lines 289-432.  The relational (`ToOneField`) loop of lines 311-337
is a no-op here: the resources modelled carry no relational fields (its
body resolves Django URLs, an external collaborator). -/
def buildFilter (sc : TableSchema) (rk : KeyField) (ps : List (String × DVal))
    (kwHash : Option DVal) (kwRange : Option String) :
    Except PyExc BuildOut := do
  -- lines 302-307: hash-key equality (query parameter, else path argument)
  let hashFilter := (pyget ps sc.hashKey.name).orElse (fun _ => kwHash)
  let filt : Filt := match hashFilter with
    | some v => [(sc.hashKey.name ++ "__eq", .dval v)]
    | none => []
  -- line 340: offset_special (uncaught ValueError on garbage)
  let osn ← pyToInt ((pyget ps "offset_special").getD (.N 0))
  let offsetSpecial := osn = 1
  -- lines 342-345: offset_range, silently coerced to 0 on garbage
  let offsetRange := offsetRangeOf ps
  -- lines 348-353: exclusive start key, hash part (conversion result
  -- discarded — line 353 stores the raw parameter)
  let eskH ← match (! offsetSpecial : Bool), pyget ps "offset_hash" with
    | true, some hov => do
        let _ ← if sc.hashKey.dataType = "N" then pyIntD hov else pure hov
        pure [(sc.hashKey.name, hov)]
    | _, _ => pure ([] : List (String × DVal))
  -- lines 356-362: exclusive start key, range part (stores the converted value)
  let eskR ← match (! offsetSpecial : Bool), pyget ps "offset_hash", pyget ps "offset_range" with
    | true, some _, some rov => do
        let rov ← if rk.dataType = "N" then pyIntD rov else pure rov
        pure [(rk.name, rov)]
    | _, _, _ => pure ([] : List (String × DVal))
  let esk := eskH ++ eskR
  -- lines 364-378: range-key predicate
  let filt ← rangePart rk ps kwRange filt
  -- line 380: page limit (uncaught ValueError on garbage)
  let limit ← match pyget ps "limit" with
    | none => pure (20 : Int)
    | some v => pyToInt v
  -- lines 382-383: attach the exclusive start key
  let filt := if esk.isEmpty then filt else pyset filt "exclusive_start_key" (.esk esk)
  -- lines 387-432: only when the hash filter value is truthy
  let (filt, ixF, ixRF) ←
    if truthyOpt hashFilter then do
      let filt := betweenPart rk.name sc.indexes ps filt
      indexPart sc.indexes ps filt
    else pure (filt, none, none)
  pure ⟨filt, hashFilter, offsetSpecial, offsetRange, limit, ixF, ixRF⟩

/-! ## Query planner (lines 434-452) -/

/-- Lines 434-452.  The threshold test is
`(len(dynamo_filter) - 1 if 'index' in dynamo_filter else 0) > 2`,
which by Python's conditional-expression precedence compares `0 > 2`
whenever no `index` entry is present.  When it fires: a `__between` on
the table's range key together with a selected index is peeled off into
a client-side `query_filter` (limit lifted, the page limit kept in
`real_limit`); otherwise the planner forces a scan and drops the index.
Returns (filter, force_scan, query_filter, limit, real_limit). -/
def planFilter (rkName : String) (filt : Filt) (limit : Int) :
    Filt × Bool × Option (Int × Int) × Option Int × Int :=
  if (if pyHas filt "index" then (filt.length : Int) - 1 else 0) > 2 then
    if pyHas filt (rkName ++ "__between") ∧ pyHas filt "index" then
      match pyget filt (rkName ++ "__between") with
      | some (.between lo hi) =>
          (pydel filt (rkName ++ "__between"), false, some (lo, hi), none, limit)
      | _ =>
          -- unreachable: `__between` keys are only ever bound to between values
          (filt, false, none, some limit, limit)
    else (pydel filt "index", true, none, some limit, limit)
  else (filt, false, none, some limit, limit)

/-! ## Execution against the store (lines 454-485) -/

structure ExecOut where
  items : List Item
  qf : Option (Int × Int)
  offsetRange : Int
  cutoffTs : Bool
  scanned : Bool
  batchGot : Bool
  deriving Repr, DecidableEq

/-- Lines 476-479: projection type of the selected index
(`filter(...)[0]` raises `IndexError` when the name is unknown). -/
def keysOnlyFlag (sc : TableSchema) (filt : Filt) (forceScan : Bool) :
    Except PyExc Bool :=
  if ¬ forceScan ∧ pyHas filt "index" then
    match pyget filt "index" with
    | some (.dval (.S iname)) =>
        match sc.indexes.find? (fun i => i.name = iname) with
        | some i => .ok i.projKeysOnly
        | none => .error .indexError
    | _ => .error .typeError
  else .ok false

/-- Line 483: one batch-get key tuple
`{hkey: it[hkey], rkey: rkey_type(it[rkey])}`. -/
def batchKeyOf (hk : String) (rk : KeyField) (it : Item) :
    Except PyExc (List (String × DVal)) := do
  let hv ← match pyget it hk with
    | some v => pure v
    | none => throw (PyExc.keyError hk)
  let rv ← match pyget it rk.name with
    | some v => pure v
    | none => throw (PyExc.keyError rk.name)
  let rv ← if rk.dataType = "N" then pyIntD rv else pure (pyStrD rv)
  pure [(hk, hv), (rk.name, rv)]

/-- Lines 475-485: the keys-only check and batch-get step applied to the
rows the store returned (skipped when the page is empty: `if req:`). -/
def execPost (sc : TableSchema) (st : StoreTable) (rk : KeyField) (filt : Filt)
    (forceScan scanned cutoff : Bool) (qf2 : Option (Int × Int)) (offR2 : Int)
    (its : List Item) : Except PyExc ExecOut :=
  match keysOnlyFlag sc filt forceScan with
  | .error e => .error e
  | .ok false => .ok ⟨its, qf2, offR2, cutoff, scanned, false⟩
  | .ok true =>
      match mapE (batchKeyOf sc.hashKey.name rk) its with
      | .error e => .error e
      | .ok req =>
          if req.isEmpty then .ok ⟨its, qf2, offR2, cutoff, scanned, false⟩
          else .ok ⟨storeBatchGet st req, qf2, offR2, cutoff, scanned, true⟩

/-- Lines 454-485: scan when forced or when the hash filter value is
falsy, else query — with the special `rkey == 'ts'` cutoff path that
lifts the limit and installs a synthetic `query_filter` — then the
keys-only batch-get step. -/
def execStore (sc : TableSchema) (st : StoreTable) (rk : KeyField) (filt : Filt)
    (forceScan hashTruthy : Bool) (qf : Option (Int × Int)) (limit : Option Int)
    (orderAsc : Bool) (offR : Int) : Except PyExc ExecOut :=
  let scanned := forceScan || ! hashTruthy
  let cutoff := (! scanned) && (rk.name ≠ "") && pyHas filt "index" &&
      (! pyHas filt "ts__between") && qf.isNone && (rk.name = "ts")
  match (if scanned then storeScan st filt (if cutoff then none else limit)
         else storeQuery sc st filt (if cutoff then none else limit) orderAsc) with
  | .error e => .error e
  | .ok its =>
      execPost sc st rk filt forceScan scanned cutoff
        (if cutoff then some ((0 : Int), (1999999999999 : Int)) else qf)
        (if cutoff then (if orderAsc then (0 : Int) else 1999999999999) else offR)
        its

/-! ## Client-side post-filter, sort, truncation (lines 487-525) -/

/-- Lines 491-495: keep items whose integer range-key value lies past
the offset (strictly) and inside the `query_filter` bounds. -/
def filterInRange (rkName : String) (orderAsc : Bool) (offR lo hi : Int) :
    List Item → Except PyExc (List Item)
  | [] => .ok []
  | it :: rest =>
      match pyget it rkName with
      | none => .error (PyExc.keyError rkName)
      | some v =>
          match pyToInt v with
          | .error e => .error e
          | .ok n =>
              match filterInRange rkName orderAsc offR lo hi rest with
              | .error e => .error e
              | .ok tail =>
                  if (if orderAsc then offR < n else n < offR) ∧ lo ≤ n ∧ n ≤ hi then
                    .ok (it :: tail)
                  else .ok tail

/-- Python `sorted(items, key=itemgetter(attr), reverse=rev)` /
`items.sort(key=lambda it: it[attr], reverse=rev)`: all sort keys are
extracted first (so a missing attribute anywhere raises `KeyError`),
then a stable sort runs. -/
def pySortByAttr (attr : String) (rev : Bool) (items : List Item) :
    Except PyExc (List Item) :=
  match mapE (fun it =>
    match pyget it attr with
    | some v => .ok (it, v)
    | none => .error (PyExc.keyError attr)) items with
  | .error e => .error e
  | .ok pairs =>
      .ok ((insSortBy
        (fun (a b : Item × DVal) => if rev then dvalLt b.2 a.2 else dvalLt a.2 b.2)
        pairs).map (fun p => p.1))

/-- Lines 500-514: the rebuilt `query_filter` dict for the `next` link —
the echoed index-field equality (`NameError` when the leaked loop
variable `index_field` was never bound, `TypeError` when
`index_range_field` is `None`), the resumption `__from`/`__to` bounds
(from `int(items[-1]['ts'])` on the cutoff path, echoed raw parameters
otherwise) and the new `offset_range`. -/
def qfDictOf (rk : KeyField) (ps : List (String × DVal)) (filt : Filt)
    (ixF ixRF : Option String) (cutoffTs orderAsc : Bool) (items3 : List Item) :
    Except PyExc (List (String × DVal)) :=
  match ixF with
  | none => .error .nameError
  | some ixf =>
      match ixRF with
      | none => .error .typeError
      | some irf =>
          match pyget filt (irf ++ "__eq") with
          | some (.dval eqv) =>
              match items3.getLast? with
              | none => .error .indexError
              | some lastIt =>
                  match pyget lastIt "ts" with
                  | none => .error (.keyError "ts")
                  | some tsv =>
                      match pyToInt tsv with
                      | .error e => .error e
                      | .ok lastTs =>
                          if cutoffTs then
                            .ok ((ixf, eqv) ::
                              (if orderAsc then
                                [(rk.name ++ "__from", DVal.N lastTs),
                                 (rk.name ++ "__to", DVal.N 1999999999999)]
                              else
                                [(rk.name ++ "__from", DVal.N 0),
                                 (rk.name ++ "__to", DVal.N lastTs)]) ++
                              [("offset_range", DVal.N lastTs)])
                          else
                            match pyget ps (rk.name ++ "__from"),
                                pyget ps (rk.name ++ "__to") with
                            | some fv, some tv =>
                                .ok ((ixf, eqv) ::
                                  [(rk.name ++ "__from", fv), (rk.name ++ "__to", tv)] ++
                                  [("offset_range", DVal.N lastTs)])
                            | none, _ => .error (.keyError (rk.name ++ "__from"))
                            | _, none => .error (.keyError (rk.name ++ "__to"))
          | some _ => .error .typeError
          | none => .error (.keyError (irf ++ "__eq"))

/-- Lines 487-520: the `query_filter` branch — post-filter by the range
key, sort by the literal `'ts'` attribute, and when the page overflowed
`real_limit` truncate and rebuild the continuation `query_filter` dict. -/
def hybridStage (rk : KeyField) (ps : List (String × DVal)) (ex : ExecOut)
    (orderAsc : Bool) (realLim : Int) (filt : Filt)
    (ixF ixRF : Option String) :
    Except PyExc (List Item × Option (List (String × DVal))) :=
  match ex.qf with
  | none => Except.ok (ex.items, (none : Option (List (String × DVal))))
  | some (lo, hi) =>
      match filterInRange rk.name orderAsc ex.offsetRange lo hi ex.items with
      | .error e => .error e
      | .ok kept =>
          match pySortByAttr "ts" (! orderAsc) kept with
          | .error e => .error e
          | .ok sorted =>
              if (sorted.length : Int) > realLim then
                match qfDictOf rk ps filt ixF ixRF ex.cutoffTs orderAsc
                    (pyTake realLim sorted) with
                | .error e => .error e
                | .ok q => .ok (pyTake realLim sorted, some q)
              else .ok (sorted, none)

/-- Lines 487-525: the hybrid stage followed by the final re-sort by the
actual range key (lines 522-523) and the `[:real_limit]` truncation
(line 525). -/
def postProcess (rk : KeyField) (ps : List (String × DVal)) (ex : ExecOut)
    (orderAsc : Bool) (realLim : Int) (filt : Filt)
    (ixF ixRF : Option String) :
    Except PyExc (List Item × Option (List (String × DVal))) :=
  match hybridStage rk ps ex orderAsc realLim filt ixF ixRF with
  | .error e => .error e
  | .ok (items, qfOut) =>
      match (if rk.name ≠ "" then pySortByAttr rk.name (! orderAsc) items
             else .ok items) with
      | .error e => .error e
      | .ok items2 => .ok (pyTake realLim items2, qfOut)

/-! ## Next-page URI (lines 527-568) -/

/-- Lines 538-568 under the store model's complete result pages
(`_last_key_seen = None`): a `next` link exists only on the hybrid
(`query_filter`) path, and then carries `offset_special=1` plus the
rebuilt filter echo. -/
def buildNext (api resName hk : String) (filt : Filt) (hashFilter : Option DVal)
    (orderAsc : Bool) (qfOut : Option (List (String × DVal)))
    (ps : List (String × DVal)) : Except PyExc (Option String) :=
  match qfOut with
  | none => .ok none
  | some q => do
      let lastHash ← match pyget filt (hk ++ "__eq") with
        | some (.dval v) => pure v
        | some _ => throw PyExc.typeError
        | none => throw (PyExc.keyError (hk ++ "__eq"))
      let u := "/api/" ++ api ++ "/" ++ resName ++ "/?offset_hash=" ++ pyStr lastHash
      let u := match hashFilter with
        | some v => u ++ "&" ++ hk ++ "=" ++ pyStr v
        | none => u
      let u := u ++ "&reverse=" ++ (if ! orderAsc then "true" else "false")
      let u := u ++ "&offset_special=1" ++
        String.join (q.map (fun kv => "&" ++ kv.1 ++ "=" ++ pyStr kv.2))
      let u := match pyget ps "format" with
        | some v => u ++ "&format=" ++ pyStr v
        | none => u
      pure (some u)

/-! ## get_list assembled -/

/-- Observable outcome of `get_list`: the serialized page (items after
dehydration, modelled as the items themselves — the paginator and
dehydration are framework collaborators returning the already-truncated
page), the `next` link, whether a scan or a query was issued, whether a
keys-only batch-get ran, and the filter dict handed to the store. -/
structure GLResult where
  objects : List Item
  nextUri : Option String
  scanned : Bool
  batchGot : Bool
  filtUsed : Filt
  deriving Repr, DecidableEq

def getListAfter (sc : TableSchema) (st : StoreTable) (rk : KeyField)
    (ps : List (String × DVal)) (orderAsc : Bool) (b : BuildOut)
    (api resName : String) : Except PyExc GLResult :=
  match planFilter rk.name b.filt b.limit with
  | (filt1, forceScan, qf0, lim, realLim) =>
      match execStore sc st rk filt1 forceScan (truthyOpt b.hashFilter) qf0 lim
          orderAsc b.offsetRange with
      | .error e => .error e
      | .ok ex =>
          match postProcess rk ps ex orderAsc realLim filt1 b.indexField b.indexRangeField with
          | .error e => .error e
          | .ok (items, qfOut) =>
              match buildNext api resName sc.hashKey.name filt1 b.hashFilter orderAsc qfOut ps with
              | .error e => .error e
              | .ok next => .ok ⟨items, next, ex.scanned, ex.batchGot, filt1⟩

/-- Embedding of `DynamoHashResource.get_list` (lines 272-572).  Line 296 reads
`rkey = self._get_range().name if self._get_range else None`: the
condition tests the bound method (always truthy) instead of calling it,
so on a hash-only table `_get_range()` is `None` and `.name` raises
`AttributeError`. -/
def getList (sc : TableSchema) (st : StoreTable) (raw : List (String × String))
    (kw : Kw) : Except PyExc GLResult :=
  match prepParams raw with
  | (ps, orderAsc) =>
      match sc.rangeKey with
      | none => .error .attributeError
      | some rk =>
          match buildFilter sc rk ps kw.hashKey kw.rangeKey with
          | .error e => .error e
          | .ok b => getListAfter sc st rk ps orderAsc b kw.apiName kw.resourceName

/-! ## Write path (lines 119-227) -/

/-- Detail keyword arguments (`kwargs['hash_key']`, `kwargs['range_key']`)
after `dispatch_detail`'s type coercion. -/
structure PrimKeys where
  hashKey : Option DVal
  rangeKey : Option DVal
  deriving Repr, DecidableEq

/-- Embedding of `get_dynamo_filter` (lines 119-124): `KeyError` when a required key
is missing from the kwargs. -/
def getDynamoFilter (sc : TableSchema) (pk : PrimKeys) :
    Except PyExc (List (String × DVal)) := do
  let hv ← match pk.hashKey with
    | some v => pure v
    | none => throw (PyExc.keyError "hash_key")
  let base := [(sc.hashKey.name, hv)]
  match sc.rangeKey with
  | none => pure base
  | some r =>
      match pk.rangeKey with
      | some rv => pure (pyset base r.name rv)
      | none => throw (PyExc.keyError "range_key")

/-- Lines 158-166: fold the bundle attributes over the base item,
skipping `None` values (`if val is None: continue`). -/
def buildItem (base : Item) (attrs : List (String × Option DVal)) : Item :=
  attrs.foldl
    (fun it kv =>
      match kv.2 with
      | some v => pyset it kv.1 v
      | none => it)
    base

/-- Embedding of `_dynamo_update_or_insert` (lines 141-179), taking the hydrated
bundle's attribute dict (`bundle.obj.to_dict()`).  With primary keys and
no `force_put` the current item is fetched (`Http404` when missing) and
the non-`None` attributes overlaid; with `force_put` the base item is
just the key filter; without keys it is empty.  The write is
`put_item(item, overwrite=force_put)` for new/PUT items and
`item.save(overwrite=True)` for the fetched-update path. -/
def updateOrInsert (sc : TableSchema) (st : StoreTable) (pk? : Option PrimKeys)
    (forcePut : Bool) (attrs : List (String × Option DVal)) :
    Except PyExc (StoreTable × Item) := do
  match pk? with
  | some pk => do
      let f ← getDynamoFilter sc pk
      if forcePut then do
        let item := buildItem f attrs
        let st2 ← putItemStore sc st item true
        pure (st2, item)
      else
        match getItemStore st f with
        | none => throw PyExc.http404
        | some it0 => do
            let item := buildItem it0 attrs
            let st2 ← putItemStore sc st item true
            pure (st2, item)
  | none => do
      let item := buildItem [] attrs
      let st2 ← putItemStore sc st item false
      pure (st2, item)

inductive RespKind where
  | noContent
  | okData
  | created
  | createdData
  deriving Repr, DecidableEq

/-- Embedding of `patch_detail` (lines 204-227): try the keyed update; only tastypie
`NotFound` and Django `MultipleObjectsReturned` divert into the
`obj_create` fallback — any other exception (in particular the `Http404`
raised by `_dynamo_update_or_insert` on a missing item) propagates. -/
def patchDetail (sc : TableSchema) (st : StoreTable) (pk : PrimKeys)
    (attrs : List (String × Option DVal)) (alwaysReturnData : Bool) :
    Except PyExc (RespKind × StoreTable) :=
  match updateOrInsert sc st (some pk) false attrs with
  | .ok (st2, _) =>
      .ok ((if alwaysReturnData then .okData else .noContent), st2)
  | .error e =>
      if e = .notFound ∨ e = .multipleObjectsReturned then
        match updateOrInsert sc st none false attrs with
        | .ok (st2, _) =>
            .ok ((if alwaysReturnData then .createdData else .created), st2)
        | .error e2 => .error e2
      else .error e

/-! ## Helper lemmas about the dict and list primitives -/

theorem pyget_nil {α : Type} (k : String) : pyget ([] : List (String × α)) k = none := rfl

theorem pyget_cons {α : Type} (p : String × α) (t : List (String × α)) (k : String) :
    pyget (p :: t) k = if p.1 = k then some p.2 else pyget t k := by
  by_cases h : p.1 = k <;> simp [pyget, List.find?, h]

theorem pyget_mem {α : Type} {d : List (String × α)} {k : String} {v : α}
    (h : pyget d k = some v) : (k, v) ∈ d := by
  induction d with
  | nil => simp [pyget] at h
  | cons p t ih =>
      rw [pyget_cons] at h
      by_cases hp : p.1 = k
      · rw [if_pos hp] at h
        have h2 : p.2 = v := by
          injection h
        have hpe : p = (k, v) := Prod.ext hp h2
        rw [← hpe]
        exact List.mem_cons_self _ _
      · rw [if_neg hp] at h
        exact List.mem_cons_of_mem _ (ih h)

theorem pyget_pyset_self {α : Type} (d : List (String × α)) (k : String) (v : α) :
    pyget (pyset d k v) k = some v := by
  induction d with
  | nil => simp [pyset, pyget_cons]
  | cons p t ih =>
      by_cases hp : p.1 = k
      · simp [pyset, hp, pyget_cons]
      · simp [pyset, hp, pyget_cons, ih]

theorem pyget_pyset_ne {α : Type} (d : List (String × α)) (k a : String) (v : α)
    (h : ¬ k = a) : pyget (pyset d k v) a = pyget d a := by
  induction d with
  | nil => simp [pyset, pyget_cons, pyget_nil, h]
  | cons p t ih =>
      by_cases hp : p.1 = k
      · simp [pyset, hp, pyget_cons, h]
      · simp [pyset, hp, pyget_cons, ih]

theorem pyget_none_of_not_key {α : Type} (d : List (String × α)) (k : String)
    (h : k ∉ d.map Prod.fst) : pyget d k = none := by
  induction d with
  | nil => rfl
  | cons p t ih =>
      rw [List.map_cons, List.mem_cons] at h
      push_neg at h
      rw [pyget_cons, if_neg (fun he => h.1 he.symm)]
      exact ih h.2

theorem mem_insSortInsert {α : Type} (lt : α → α → Bool) (x y : α) (l : List α) :
    y ∈ insSortInsert lt x l ↔ y = x ∨ y ∈ l := by
  induction l with
  | nil => simp [insSortInsert]
  | cons a t ih =>
      by_cases h : lt x a
      · simp [insSortInsert, h]
      · simp [insSortInsert, h, ih]
        tauto

theorem mem_insSortBy {α : Type} (lt : α → α → Bool) (l : List α) (y : α) :
    y ∈ insSortBy lt l ↔ y ∈ l := by
  induction l with
  | nil => simp [insSortBy]
  | cons a t ih => simp [insSortBy, mem_insSortInsert, ih]

theorem mapE_ok_map_eq {α β : Type} (f : α → Except PyExc β) (g : β → α)
    (hf : ∀ x y, f x = .ok y → g y = x) :
    ∀ (l : List α) (r : List β), mapE f l = .ok r → r.map g = l := by
  intro l
  induction l with
  | nil =>
      intro r h
      simp [mapE] at h
      simp [← h]
  | cons x xs ih =>
      intro r h
      unfold mapE at h
      cases hx : f x with
      | error e => simp [hx] at h
      | ok y =>
          cases hxs : mapE f xs with
          | error e => simp [hx, hxs] at h
          | ok ys =>
              simp [hx, hxs] at h
              subst h
              simp [hf x y hx, ih ys hxs]

theorem mapE_ok_length {α β : Type} (f : α → Except PyExc β) :
    ∀ (l : List α) (r : List β), mapE f l = .ok r → r.length = l.length := by
  intro l
  induction l with
  | nil =>
      intro r h
      simp [mapE] at h
      simp [← h]
  | cons x xs ih =>
      intro r h
      unfold mapE at h
      cases hx : f x with
      | error e => simp [hx] at h
      | ok y =>
          cases hxs : mapE f xs with
          | error e => simp [hx, hxs] at h
          | ok ys =>
              simp [hx, hxs] at h
              subst h
              simp [ih ys hxs]

theorem mem_pyTake {α : Type} (n : Int) (l : List α) (x : α)
    (h : x ∈ pyTake n l) : x ∈ l := by
  unfold pyTake at h
  by_cases hn : n < 0
  · simp [hn] at h
    exact List.take_subset _ _ h
  · simp [hn] at h
    exact List.take_subset _ _ h

theorem mem_storeBatchGet (st : StoreTable) (keys : List (List (String × DVal)))
    (x : Item) (h : x ∈ storeBatchGet st keys) : x ∈ st.rows := by
  unfold storeBatchGet at h
  rw [List.mem_flatMap] at h
  obtain ⟨key, _, hx⟩ := h
  exact List.mem_of_mem_filter hx

theorem mem_filterInRange (rkName : String) (orderAsc : Bool) (offR lo hi : Int) :
    ∀ (l r : List Item), filterInRange rkName orderAsc offR lo hi l = .ok r →
      ∀ x ∈ r, x ∈ l := by
  intro l
  induction l with
  | nil =>
      intro r h
      simp only [filterInRange] at h
      injection h with h
      simp [← h]
  | cons it rest ih =>
      intro r h x hx
      unfold filterInRange at h
      split at h
      · exact absurd h (by simp)
      · split at h
        · exact absurd h (by simp)
        · split at h
          · exact absurd h (by simp)
          · next tail ht =>
              split at h
              all_goals split at h
              all_goals injection h with h
              all_goals rw [← h] at hx
              all_goals
                first
                | exact List.mem_cons_of_mem _ (ih tail ht x hx)
                | (rcases List.mem_cons.mp hx with hx2 | hx2
                   · rw [hx2]
                     exact List.mem_cons_self _ _
                   · exact List.mem_cons_of_mem _ (ih tail ht x hx2))

theorem mem_pySortByAttr (attr : String) (rev : Bool) (items r : List Item)
    (h : pySortByAttr attr rev items = .ok r) : ∀ x ∈ r, x ∈ items := by
  unfold pySortByAttr at h
  cases hp : mapE (fun it =>
      match pyget it attr with
      | some v => Except.ok (it, v)
      | none => Except.error (PyExc.keyError attr)) items with
  | error e => rw [hp] at h; exact absurd h (by simp)
  | ok pairs =>
      rw [hp] at h
      injection h with h
      intro x hx
      rw [← h, List.mem_map] at hx
      obtain ⟨p, hpmem, hpx⟩ := hx
      rw [mem_insSortBy] at hpmem
      have hmap : pairs.map Prod.fst = items := by
        refine mapE_ok_map_eq _ _ ?_ items pairs hp
        intro it y hy
        cases hg : pyget it attr with
        | some v =>
            rw [hg] at hy
            injection hy with hy
            rw [← hy]
        | none => rw [hg] at hy; exact absurd hy (by simp)
      rw [← hmap, List.mem_map]
      exact ⟨p, hpmem, hpx⟩

theorem mem_hybridStage (rk : KeyField) (ps : List (String × DVal)) (ex : ExecOut)
    (orderAsc : Bool) (realLim : Int) (filt : Filt) (ixF ixRF : Option String)
    (items : List Item) (q : Option (List (String × DVal)))
    (h : hybridStage rk ps ex orderAsc realLim filt ixF ixRF = .ok (items, q)) :
    ∀ x ∈ items, x ∈ ex.items := by
  unfold hybridStage at h
  split at h
  · injection h with h
    intro x hx
    rw [← (Prod.mk.injEq _ _ _ _).mp h |>.1] at hx
    exact hx
  · split at h
    · exact absurd h (by simp)
    · next kept hkept =>
        split at h
        · exact absurd h (by simp)
        · next sorted hsorted =>
            intro x hx
            have hin : x ∈ sorted → x ∈ ex.items := fun hs =>
              mem_filterInRange _ _ _ _ _ _ _ hkept x
                (mem_pySortByAttr _ _ _ _ hsorted x hs)
            split at h
            · split at h
              · exact absurd h (by simp)
              · injection h with h
                rw [← (Prod.mk.injEq _ _ _ _).mp h |>.1] at hx
                exact hin (mem_pyTake _ _ _ hx)
            · injection h with h
              rw [← (Prod.mk.injEq _ _ _ _).mp h |>.1] at hx
              exact hin hx

theorem mem_postProcess (rk : KeyField) (ps : List (String × DVal)) (ex : ExecOut)
    (orderAsc : Bool) (realLim : Int) (filt : Filt) (ixF ixRF : Option String)
    (items : List Item) (q : Option (List (String × DVal)))
    (h : postProcess rk ps ex orderAsc realLim filt ixF ixRF = .ok (items, q)) :
    ∀ x ∈ items, x ∈ ex.items := by
  unfold postProcess at h
  split at h
  · exact absurd h (by simp)
  · next items0 qfOut hstage =>
      split at h
      · exact absurd h (by simp)
      · next items2 hsort =>
          injection h with h
          have h1 : items = pyTake realLim items2 :=
            ((Prod.mk.injEq _ _ _ _).mp h).1.symm
          intro x hx
          rw [h1] at hx
          have hx2 : x ∈ items2 := mem_pyTake _ _ _ hx
          have hx0 : x ∈ items0 := by
            by_cases hrk : rk.name ≠ ""
            · rw [if_pos hrk] at hsort
              exact mem_pySortByAttr _ _ _ _ hsort x hx2
            · rw [if_neg hrk] at hsort
              injection hsort with hsort
              rw [hsort]
              exact hx2
          exact mem_hybridStage _ _ _ _ _ _ _ _ _ _ hstage x hx0


theorem keysOnlyFlag_of_found (sc : TableSchema) (filt : Filt) (i : SecIndex)
    (hidx : pyget filt "index" = some (.dval (.S i.name)))
    (hfind : sc.indexes.find? (fun j => j.name = i.name) = some i) :
    keysOnlyFlag sc filt false = .ok i.projKeysOnly := by
  simp [keysOnlyFlag, pyHas, hidx, hfind]

theorem execPost_scanned (sc : TableSchema) (st : StoreTable) (rk : KeyField)
    (filt : Filt) (forceScan scanned cutoff : Bool) (qf2 : Option (Int × Int))
    (offR2 : Int) (its : List Item) (ex : ExecOut)
    (h : execPost sc st rk filt forceScan scanned cutoff qf2 offR2 its = .ok ex) :
    ex.scanned = scanned := by
  unfold execPost at h
  split at h
  · exact absurd h (by simp)
  · injection h with h
    rw [← h]
  · split at h
    · exact absurd h (by simp)
    · split at h
      all_goals injection h with h
      all_goals rw [← h]

theorem execPost_mem (sc : TableSchema) (st : StoreTable) (rk : KeyField)
    (filt : Filt) (scanned cutoff : Bool) (qf2 : Option (Int × Int))
    (offR2 : Int) (its : List Item) (ex : ExecOut) (i : SecIndex)
    (h : execPost sc st rk filt false scanned cutoff qf2 offR2 its = .ok ex)
    (hidx : pyget filt "index" = some (.dval (.S i.name)))
    (hfind : sc.indexes.find? (fun j => j.name = i.name) = some i)
    (hko : i.projKeysOnly = true) :
    (∀ x ∈ ex.items, x ∈ st.rows) ∧ (ex.items ≠ [] → ex.batchGot = true) := by
  unfold execPost at h
  split at h
  · next e heq =>
      rw [keysOnlyFlag_of_found sc filt i hidx hfind, hko] at heq
      exact absurd heq (by simp)
  · next heq =>
      rw [keysOnlyFlag_of_found sc filt i hidx hfind, hko] at heq
      exact absurd heq (by simp)
  · split at h
    · exact absurd h (by simp)
    · next req hreq =>
      by_cases hre : req.isEmpty = true
      · rw [if_pos hre] at h
        injection h with h
        have hlen := mapE_ok_length _ its req hreq
        have hnil : its = [] := by
          have hr0 : req = [] := List.isEmpty_iff.mp hre
          rw [hr0] at hlen
          exact List.length_eq_zero.mp hlen.symm
        constructor
        · intro x hx
          rw [← h] at hx
          simp [hnil] at hx
        · intro hne
          rw [← h] at hne
          simp [hnil] at hne
      · rw [if_neg hre] at h
        injection h with h
        constructor
        · intro x hx
          rw [← h] at hx
          exact mem_storeBatchGet st req x hx
        · intro _
          rw [← h]

theorem execStore_keysOnly (sc : TableSchema) (st : StoreTable) (rk : KeyField)
    (filt : Filt) (forceScan hashTruthy : Bool) (qf : Option (Int × Int))
    (limit : Option Int) (orderAsc : Bool) (offR : Int) (ex : ExecOut) (i : SecIndex)
    (h : execStore sc st rk filt forceScan hashTruthy qf limit orderAsc offR = .ok ex)
    (hscan : ex.scanned = false)
    (hidx : pyget filt "index" = some (.dval (.S i.name)))
    (hfind : sc.indexes.find? (fun j => j.name = i.name) = some i)
    (hko : i.projKeysOnly = true) :
    (∀ x ∈ ex.items, x ∈ st.rows) ∧ (ex.items ≠ [] → ex.batchGot = true) := by
  simp only [execStore] at h
  by_cases hs : (forceScan || ! hashTruthy) = true
  · -- would construct `ex` with `scanned = true`, contradicting `hscan`
    rw [hs] at h
    simp only [if_pos, storeScan] at h
    have := execPost_scanned _ _ _ _ _ _ _ _ _ _ _ h
    rw [hscan] at this
    exact absurd this.symm (by simp)
  · have hsf : (forceScan || ! hashTruthy) = false := Bool.eq_false_iff.mpr hs
    have hfs : forceScan = false := (Bool.or_eq_false_iff.mp hsf).1
    rw [hsf] at h
    simp only [Bool.false_eq_true, if_false] at h
    split at h
    · exact absurd h (by simp)
    · next its hits =>
        rw [hfs] at h
        exact execPost_mem _ _ _ _ _ _ _ _ _ _ _ h hidx hfind hko

theorem pyget_buildItem (a : String) :
    ∀ (attrs : List (String × Option DVal)) (base : Item),
      (attrs.map Prod.fst).Nodup →
      pyget (buildItem base attrs) a =
        (match pyget attrs a with
         | some (some v) => some v
         | _ => pyget base a) := by
  intro attrs
  induction attrs with
  | nil =>
      intro base _
      simp [buildItem, pyget_nil]
  | cons kv t ih =>
      intro base hnd
      rw [List.map_cons, List.nodup_cons] at hnd
      have hstep : buildItem base (kv :: t) =
          buildItem (match kv.2 with
                     | some v => pyset base kv.1 v
                     | none => base) t := rfl
      rw [hstep, ih _ hnd.2, pyget_cons]
      by_cases ha : kv.1 = a
      · have ht : pyget t a = none := by
          apply pyget_none_of_not_key
          rw [← ha]
          exact hnd.1
        rw [if_pos ha, ht]
        cases hv : kv.2 with
        | some v =>
            rw [← ha]
            exact pyget_pyset_self base kv.1 v
        | none => rfl
      · rw [if_neg ha]
        cases hg : pyget t a with
        | none =>
            cases hv : kv.2 with
            | some v => exact pyget_pyset_ne base kv.1 a v ha
            | none => rfl
        | some w =>
            cases w with
            | some v => rfl
            | none =>
                cases hv : kv.2 with
                | some v => exact pyget_pyset_ne base kv.1 a v ha
                | none => rfl

theorem normVal_string (v s : String) (h : normVal v = .S s) :
    strLower s ≠ "true" ∧ strLower s ≠ "false" := by
  unfold normVal at h
  by_cases hb : strLower v = "true" ∨ strLower v = "false"
  · rw [if_pos hb] at h
    exact absurd h (by simp)
  · rw [if_neg hb] at h
    injection h with h
    rw [← h]
    push_neg at hb
    exact hb

theorem prepParams_no_bool_strings (raw : List (String × String)) (k s : String)
    (h : pyget (prepParams raw).1 k = some (.S s)) :
    strLower s ≠ "true" ∧ strLower s ≠ "false" := by
  unfold prepParams at h
  simp only [pyPop] at h
  have hmem := pyget_mem h
  have hmem2 : (k, DVal.S s) ∈ boolNorm (lowerKeys raw) :=
    List.mem_of_mem_filter hmem
  unfold boolNorm at hmem2
  rw [List.mem_map] at hmem2
  obtain ⟨kv, _, heq⟩ := hmem2
  have hnv : normVal kv.2 = .S s := congrArg Prod.snd heq
  exact normVal_string kv.2 s hnv

theorem rangePart_star (rk : KeyField) (ps : List (String × DVal))
    (hnp : pyget ps rk.name = none) (filt : Filt) :
    rangePart rk ps (some "*") filt = rangePart rk ps none filt := by
  simp [rangePart, hnp]

theorem betweenPart_unindexed (rkName : String) (idxs : List SecIndex)
    (ps : List (String × DVal)) (filt : Filt) (attr : String) (fv tv : DVal)
    (f t : Int)
    (hbk : betweenKeys ps = [attr ++ "__from"])
    (hparam : strBefore (attr ++ "__from") "__from" = attr)
    (hfv : pyget ps (attr ++ "__from") = some fv)
    (htv : pyget ps (attr ++ "__to") = some tv)
    (htt : pyTruthy tv = true)
    (hf : pyToInt fv = .ok f)
    (ht : pyToInt tv = .ok t)
    (hrk : ¬ attr = rkName)
    (hidx : idxs.find? (fun i => attr = i.attr ∨ some attr = i.mapped) = none) :
    betweenPart rkName idxs ps filt = pyset filt (attr ++ "__between") (.between f t) := by
  unfold betweenPart
  rw [hbk]
  have hidx2 : idxs.find?
      (fun i => decide (attr = i.attr) || decide (some attr = i.mapped)) = none := by
    rw [← hidx]
    congr 1
    funext i
    by_cases h1 : attr = i.attr <;> by_cases h2 : some attr = i.mapped <;>
      simp [h1, h2]
  simp [betweenStep, hparam, htv, htt, hfv, hf, ht, hrk, hidx2, bind, Except.bind,
    pure, Except.pure]

theorem buildFilter_star (sc : TableSchema) (rk : KeyField)
    (ps : List (String × DVal)) (kwHash : Option DVal)
    (hnp : pyget ps rk.name = none) :
    buildFilter sc rk ps kwHash (some "*") = buildFilter sc rk ps kwHash none := by
  unfold buildFilter
  simp only [rangePart_star rk ps hnp]

/-! ## Concrete fixtures used by the claim theorems and witnesses -/

/-- Table with hash key `h` (string) and range key `ts` (numeric), no
secondary indexes. -/
def scTs : TableSchema := ⟨⟨"h", "S"⟩, some ⟨"ts", "N"⟩, []⟩

def stTs : StoreTable :=
  ⟨[[("h", .S "a"), ("ts", .N 5), ("foo", .N 3), ("bar", .N 4), ("baz", .N 6)]]⟩

/-- List-endpoint kwargs: no path keys, just the URL names. -/
def kwList : Kw := ⟨none, none, "v1", "items"⟩

/-- Table whose range key is `score` (so not the hardcoded `ts`), with a
full-projection secondary index on `cat` mapped to a plain resource
field. -/
def scScore : TableSchema :=
  ⟨⟨"h", "S"⟩, some ⟨"score", "N"⟩,
   [⟨"cat-index", "cat", some "cat", .ident, false⟩]⟩

def stScore : StoreTable := ⟨[[("h", .S "a"), ("score", .N 5), ("cat", .S "x")]]⟩

/-! ## Claim theorems -/

/-- C1: the claim says that with a hash-key equality predicate, more than
two additional active predicate groups and no eligible hybrid
decomposition the planner issues a Scan and never a DirectQuery.  On the
code this fails: with three `between` groups and no selected index the
threshold expression `(len(dynamo_filter) - 1 if 'index' in dynamo_filter
else 0) > 2` (resources.py line 439) parses as comparing `0 > 2`, so
`force_scan` is never set and `table.query` is issued (`scanned = false`)
with all three `__between` predicates still in the filter — contradicting
the comment above it (`If there are more than 2 conditions, we need to
scan, not query`). -/
theorem c1_three_groups_no_index_still_queries :
    (getList scTs stTs
        [("h", "a"), ("foo__from", "1"), ("foo__to", "9"), ("bar__from", "2"),
         ("bar__to", "8"), ("baz__from", "0"), ("baz__to", "7")] kwList).map
      (fun r => (r.scanned, pyHas r.filtUsed "foo__between",
        pyHas r.filtUsed "bar__between", pyHas r.filtUsed "baz__between",
        r.objects.length))
      = .ok (false, true, true, true, 1) := rfl

/-- C2: the claim says a hash-only table with a hash-key equality list
request is planned as a direct no-index query and succeeds.  On the code
every list request on a hash-only table crashes: line 296 tests the
bound method `self._get_range` (always truthy) instead of calling it, so
`self._get_range().name` dereferences `None` and raises
`AttributeError`. -/
theorem c2_hash_only_list_crashes :
    getList ⟨⟨"h", "S"⟩, none, []⟩ ⟨[]⟩ [("h", "a")] kwList
      = .error .attributeError := rfl

/-- C3: the claim says the hybrid query-then-filter path re-sorts by the
table's declared range key whatever its attribute name is.  On the code
the hybrid sort key is the literal `'ts'` (line 497,
`sorted(__items, key=itemgetter('ts'), ...)`): with range key `score`,
an indexed `cat` equality and a `score__from`/`score__to` between
(3 predicate groups → hybrid), the one matching item has no `ts`
attribute and the request dies with `KeyError: 'ts'`. -/
theorem c3_hybrid_resort_hardcoded_ts_keyerror :
    getList scScore stScore
      [("h", "a"), ("cat", "x"), ("score__from", "1"), ("score__to", "9")] kwList
      = .error (.keyError "ts") := rfl

/-- C4 counterexample: the claim says a non-numeric `offset_range` is
rejected with a `ValidationError` and never silently coerced to zero.
On the code (lines 342-345) the bare `try/except` swallows the
`ValueError` and substitutes `0`: the request with `offset_range=abc`
succeeds (returns the queried page) and the offset used for pagination
is `0`. -/
theorem c4_nonnumeric_offset_not_rejected :
    ((getList scTs stTs [("h", "a"), ("offset_range", "abc")] kwList).map
      (fun r => r.objects.length) = .ok 1) ∧
    offsetRangeOf (prepParams [("h", "a"), ("offset_range", "abc")]).1 = 0 :=
  ⟨rfl, rfl⟩

/-- C4 (amended): whenever the `offset_range` parameter holds a string
that `int()` cannot parse, the offset is silently coerced to `0` (the
`except` handler's default) instead of the request being rejected. -/
theorem c4_amended_offset_range_coerced_to_zero (ps : List (String × DVal))
    (s : String) (hv : pyget ps "offset_range" = some (.S s))
    (hbad : parseInt s = none) :
    offsetRangeOf ps = 0 := by
  unfold offsetRangeOf
  rw [hv]
  simp [pyToInt, hbad]

theorem c4_amended_witness :
    pyget [("offset_range", DVal.S "abc")] "offset_range" = some (.S "abc") ∧
    parseInt "abc" = none ∧
    offsetRangeOf [("offset_range", DVal.S "abc")] = 0 :=
  ⟨rfl, rfl, c4_amended_offset_range_coerced_to_zero _ "abc" rfl rfl⟩

/-- C5: the claim says a PATCH whose keys match no stored item falls back
to the create path and returns Created.  On the code the fallback is
dead: `_dynamo_update_or_insert` raises Django's `Http404` on a missing
item (line 153) but `patch_detail` only catches tastypie's `NotFound`
and `MultipleObjectsReturned` (line 218), so the `Http404` propagates
and the request fails as not-found instead of creating the item. -/
theorem c5_patch_missing_item_http404 :
    patchDetail scTs ⟨[]⟩ ⟨some (.S "a"), some (.N 5)⟩
      [("name", some (.S "bob"))] false = .error .http404 := rfl

/-- Like `scScore` but the resource field mapped to the indexed `cat`
attribute is string-typed (`StringMixin`, `convert = str`). -/
def scCatStr : TableSchema :=
  ⟨⟨"h", "S"⟩, some ⟨"score", "N"⟩,
   [⟨"cat-index", "cat", some "cat", .toStr, false⟩]⟩

def stCatStr : StoreTable := ⟨[[("h", .S "a"), ("score", .N 1), ("cat", .S "True")]]⟩

/-- C6 counterexample: the claim says a boolean-looking query-parameter
value is placed into the storage predicate as the integer 1/0, never the
original string.  On the code the value `True` for the indexed `cat`
attribute is first normalized to the Python boolean (line 283) but then
passed through the mapped resource field's `convert` (line 424): for a
string-typed field that is `str(True) = 'True'`, so the predicate ends
up carrying exactly the original string `"True"`. -/
theorem c6_boolean_string_reaches_predicate :
    (getList scCatStr stCatStr [("h", "a"), ("cat", "True")] kwList).map
      (fun r => (pyget r.filtUsed "cat__eq", r.objects.length))
      = .ok (some (.dval (.S "True")), 1) := rfl

/-- C6 (amended): after the line 281-283 normalization no query
parameter still carries a boolean-looking *string* value (it has become
a Python boolean, an integer 1/0), and the numeric conversions applied
at the predicate sites map that boolean to the integer 1/0 — but the
string conversion of a string-typed indexed resource field turns it into
`"True"`/`"False"` instead. -/
theorem c6_amended_normalization (raw : List (String × String)) (k s : String)
    (h : pyget (prepParams raw).1 k = some (.S s)) :
    (strLower s ≠ "true" ∧ strLower s ≠ "false") ∧
    (∀ b : Bool,
      pyToInt (.B b) = .ok (if b then 1 else 0) ∧
      applyConv .toInt (.B b) = .ok (.N (if b then 1 else 0)) ∧
      applyConv .toStr (.B b) = .ok (.S (if b then "True" else "False"))) := by
  refine ⟨prepParams_no_bool_strings raw k s h, ?_⟩
  intro b
  cases b <;> exact ⟨rfl, rfl, rfl⟩

theorem c6_amended_witness :
    pyget (prepParams [("cat", "x")]).1 "cat" = some (.S "x") ∧
    ((strLower "x" ≠ "true" ∧ strLower "x" ≠ "false") ∧
     (∀ b : Bool,
       pyToInt (.B b) = .ok (if b then 1 else 0) ∧
       applyConv .toInt (.B b) = .ok (.N (if b then 1 else 0)) ∧
       applyConv .toStr (.B b) = .ok (.S (if b then "True" else "False")))) :=
  ⟨rfl, c6_amended_normalization [("cat", "x")] "cat" "x" rfl⟩

/-- C7: a list request whose range-key path parameter is exactly `*`
builds the same filter (no range predicate emitted, lines 366-378) and
returns the same result as the same request with the range-key parameter
omitted, provided the range key does not also appear as a query
parameter (in which case both variants read the query parameter — and
the omitted variant would crash on the eagerly-evaluated
`kwargs['range_key']` default of line 367). -/
theorem c7_star_range_same_as_omitted (sc : TableSchema) (st : StoreTable)
    (raw : List (String × String)) (kw : Kw) (rk : KeyField)
    (hsc : sc.rangeKey = some rk)
    (hnp : pyget (prepParams raw).1 rk.name = none) :
    buildFilter sc rk (prepParams raw).1 kw.hashKey (some "*") =
      buildFilter sc rk (prepParams raw).1 kw.hashKey none ∧
    getList sc st raw { kw with rangeKey := some "*" } =
      getList sc st raw { kw with rangeKey := none } := by
  rcases hpp : prepParams raw with ⟨ps, oa⟩
  rw [hpp] at hnp
  have hbf := buildFilter_star sc rk ps kw.hashKey hnp
  constructor
  · exact hbf
  · unfold getList
    rw [hpp, hsc]
    simp only
    rw [hbf]

theorem c7_witness :
    scTs.rangeKey = some ⟨"ts", "N"⟩ ∧
    pyget (prepParams [("h", "a")]).1 "ts" = none ∧
    (buildFilter scTs ⟨"ts", "N"⟩ (prepParams [("h", "a")]).1 (some (.S "a")) (some "*") =
      buildFilter scTs ⟨"ts", "N"⟩ (prepParams [("h", "a")]).1 (some (.S "a")) none ∧
     getList scTs stTs [("h", "a")] ⟨some (.S "a"), some "*", "v1", "items"⟩ =
      getList scTs stTs [("h", "a")] ⟨some (.S "a"), none, "v1", "items"⟩) :=
  ⟨rfl, rfl,
   c7_star_range_same_as_omitted scTs stTs [("h", "a")]
     ⟨some (.S "a"), none, "v1", "items"⟩ ⟨"ts", "N"⟩ rfl rfl⟩

def stScoreFoo : StoreTable :=
  ⟨[[("h", .S "a"), ("score", .N 5), ("cat", .S "x"), ("foo", .N 3)]]⟩

/-- C9 counterexample: the claim says a `__from`/`__to` pair on an
attribute that is neither the range key nor any index's attribute fails
with a `ValidationError` and is never passed through to the store.  On
the code (lines 390-408) the `foo__between` predicate is simply left in
`dynamo_filter` with no index selected; here the predicate count then
forces a scan and the scan is issued with `foo__between` still in the
filter — the request succeeds, no error is raised. -/
theorem c9_unindexed_between_passed_to_store :
    (getList scScore stScoreFoo
        [("h", "a"), ("cat", "x"), ("foo__from", "1"), ("foo__to", "9")] kwList).map
      (fun r => (r.scanned, pyget r.filtUsed "foo__between",
        pyHas r.filtUsed "index", r.objects.length))
      = .ok (true, some (.between 1 9), false, 1) := rfl

/-- C9 (amended): a `__from`/`__to` pair on an attribute that is neither
the range key nor carried by any secondary index produces a
`<attr>__between` predicate that stays in the filter unchanged (no index
selected, no error raised) and is handed to the store with the rest of
the filter. -/
theorem c9_amended_between_left_in_filter (rkName : String)
    (idxs : List SecIndex) (ps : List (String × DVal)) (filt : Filt)
    (attr : String) (fv tv : DVal) (f t : Int)
    (hbk : betweenKeys ps = [attr ++ "__from"])
    (hparam : strBefore (attr ++ "__from") "__from" = attr)
    (hfv : pyget ps (attr ++ "__from") = some fv)
    (htv : pyget ps (attr ++ "__to") = some tv)
    (htt : pyTruthy tv = true)
    (hf : pyToInt fv = .ok f)
    (ht : pyToInt tv = .ok t)
    (hrk : ¬ attr = rkName)
    (hidx : idxs.find? (fun i => attr = i.attr ∨ some attr = i.mapped) = none) :
    betweenPart rkName idxs ps filt = pyset filt (attr ++ "__between") (.between f t) ∧
    pyget (betweenPart rkName idxs ps filt) (attr ++ "__between") =
      some (.between f t) := by
  have hbp := betweenPart_unindexed rkName idxs ps filt attr fv tv f t
    hbk hparam hfv htv htt hf ht hrk hidx
  refine ⟨hbp, ?_⟩
  rw [hbp]
  exact pyget_pyset_self filt (attr ++ "__between") (.between f t)

theorem c9_amended_witness :
    betweenKeys [("h", DVal.S "a"), ("foo__from", DVal.S "1"), ("foo__to", DVal.S "9")]
        = ["foo" ++ "__from"] ∧
    (betweenPart "score" scScore.indexes
        [("h", DVal.S "a"), ("foo__from", DVal.S "1"), ("foo__to", DVal.S "9")]
        [("h__eq", .dval (.S "a"))] =
      pyset [("h__eq", .dval (.S "a"))] ("foo" ++ "__between") (.between 1 9) ∧
     pyget (betweenPart "score" scScore.indexes
        [("h", DVal.S "a"), ("foo__from", DVal.S "1"), ("foo__to", DVal.S "9")]
        [("h__eq", .dval (.S "a"))]) ("foo" ++ "__between") = some (.between 1 9)) :=
  ⟨rfl,
   c9_amended_between_left_in_filter "score" scScore.indexes
     [("h", DVal.S "a"), ("foo__from", DVal.S "1"), ("foo__to", DVal.S "9")]
     [("h__eq", .dval (.S "a"))] "foo" (.S "1") (.S "9") 1 9
     rfl rfl rfl rfl rfl rfl rfl (by decide) rfl⟩

/-- C10: on the fetched-update write path (`primary_keys` given, no
`force_put` — the PATCH route), every bundle attribute whose value is
`None` is skipped when building the stored item, so the stored item
keeps the fetched value both for `None`-valued attributes and for
attributes absent from the bundle, and only non-`None` bundle attributes
are written (lines 158-174). -/
theorem c10_update_skips_none_attributes (sc : TableSchema) (st : StoreTable)
    (pk : PrimKeys) (attrs : List (String × Option DVal))
    (f : List (String × DVal)) (fetched : Item)
    (hf : getDynamoFilter sc pk = .ok f)
    (hget : getItemStore st f = some fetched)
    (hnd : (attrs.map Prod.fst).Nodup) :
    (∃ st2, updateOrInsert sc st (some pk) false attrs =
      .ok (st2, buildItem fetched attrs)) ∧
    ∀ a, pyget (buildItem fetched attrs) a =
      (match pyget attrs a with
       | some (some v) => some v
       | _ => pyget fetched a) := by
  constructor
  · refine ⟨⟨(st.rows.filter (fun r => ¬ sameKeys sc r (buildItem fetched attrs))) ++
      [buildItem fetched attrs]⟩, ?_⟩
    unfold updateOrInsert
    simp [hf, hget, putItemStore, bind, Except.bind, pure, Except.pure]
  · intro a
    exact pyget_buildItem a attrs fetched hnd

theorem c10_witness :
    getDynamoFilter scTs ⟨some (.S "a"), some (.N 5)⟩ = .ok [("h", .S "a"), ("ts", .N 5)] ∧
    getItemStore stTs [("h", .S "a"), ("ts", .N 5)] =
      some [("h", .S "a"), ("ts", .N 5), ("foo", .N 3), ("bar", .N 4), ("baz", .N 6)] ∧
    (([("foo", some (DVal.N 7)), ("bar", (none : Option DVal))].map Prod.fst).Nodup ∧
     ((∃ st2, updateOrInsert scTs stTs (some ⟨some (.S "a"), some (.N 5)⟩) false
         [("foo", some (DVal.N 7)), ("bar", none)] =
       .ok (st2, buildItem
         [("h", .S "a"), ("ts", .N 5), ("foo", .N 3), ("bar", .N 4), ("baz", .N 6)]
         [("foo", some (DVal.N 7)), ("bar", none)])) ∧
      ∀ a, pyget (buildItem
          [("h", .S "a"), ("ts", .N 5), ("foo", .N 3), ("bar", .N 4), ("baz", .N 6)]
          [("foo", some (DVal.N 7)), ("bar", none)]) a =
        (match pyget [("foo", some (DVal.N 7)), ("bar", none)] a with
         | some (some v) => some v
         | _ => pyget [("h", .S "a"), ("ts", .N 5), ("foo", .N 3), ("bar", .N 4),
             ("baz", .N 6)] a))) :=
  ⟨rfl, rfl, by decide,
   c10_update_skips_none_attributes scTs stTs ⟨some (.S "a"), some (.N 5)⟩
     [("foo", some (DVal.N 7)), ("bar", none)]
     [("h", .S "a"), ("ts", .N 5)]
     [("h", .S "a"), ("ts", .N 5), ("foo", .N 3), ("bar", .N 4), ("baz", .N 6)]
     rfl rfl (by decide)⟩

/-- C8: whenever a list request executes as a query (`scanned = false`)
against a selected secondary index whose projection is keys-only, the
reconciler batch-gets the full rows (lines 475-485) — so every item in
the final page is a full stored row of the table, not a keys-only
projection, and a non-empty page implies the batch-get ran. -/
theorem c8_keys_only_batch_get (sc : TableSchema) (st : StoreTable)
    (raw : List (String × String)) (kw : Kw) (i : SecIndex) (res : GLResult)
    (hres : getList sc st raw kw = .ok res)
    (hscan : res.scanned = false)
    (hidx : pyget res.filtUsed "index" = some (.dval (.S i.name)))
    (hfind : sc.indexes.find? (fun j => j.name = i.name) = some i)
    (hko : i.projKeysOnly = true) :
    (∀ it ∈ res.objects, it ∈ st.rows) ∧
    (res.objects ≠ [] → res.batchGot = true) := by
  unfold getList at hres
  rcases hpp : prepParams raw with ⟨ps, oa⟩
  simp only [hpp] at hres
  cases hrk : sc.rangeKey with
  | none =>
      simp only [hrk] at hres
      exact absurd hres (by simp)
  | some rk =>
      simp only [hrk] at hres
      cases hb : buildFilter sc rk ps kw.hashKey kw.rangeKey with
      | error e => exact absurd hres (by simp [hb])
      | ok b =>
          simp only [hb] at hres
          unfold getListAfter at hres
          rcases hpf : planFilter rk.name b.filt b.limit with
            ⟨filt1, fs, qf0, lim, rlim⟩
          simp only [hpf] at hres
          cases hex : execStore sc st rk filt1 fs (truthyOpt b.hashFilter) qf0 lim
              oa b.offsetRange with
          | error e => exact absurd hres (by simp [hex])
          | ok ex =>
              simp only [hex] at hres
              cases hpo : postProcess rk ps ex oa rlim filt1 b.indexField
                  b.indexRangeField with
              | error e => exact absurd hres (by simp [hpo])
              | ok pr =>
                  rcases pr with ⟨items, qfOut⟩
                  simp only [hpo] at hres
                  cases hbn : buildNext kw.apiName kw.resourceName sc.hashKey.name
                      filt1 b.hashFilter oa qfOut ps with
                  | error e => exact absurd hres (by simp [hbn])
                  | ok nxt =>
                      simp only [hbn] at hres
                      injection hres with hres
                      rw [← hres] at hscan hidx ⊢
                      have hmem := execStore_keysOnly sc st rk filt1 fs
                        (truthyOpt b.hashFilter) qf0 lim oa b.offsetRange ex i
                        hex hscan hidx hfind hko
                      constructor
                      · intro it hit
                        exact hmem.1 it
                          (mem_postProcess rk ps ex oa rlim filt1 b.indexField
                            b.indexRangeField items qfOut hpo it hit)
                      · intro hne
                        obtain ⟨x, hx⟩ := List.exists_mem_of_ne_nil items hne
                        have hxe : x ∈ ex.items :=
                          mem_postProcess rk ps ex oa rlim filt1 b.indexField
                            b.indexRangeField items qfOut hpo x hx
                        exact hmem.2 (fun hnil => by
                          rw [hnil] at hxe
                          exact absurd hxe (by simp))

/-- Keys-only variant of the `cat` index. -/
def scKO : TableSchema :=
  ⟨⟨"h", "S"⟩, some ⟨"score", "N"⟩,
   [⟨"cat-index", "cat", some "cat", .ident, true⟩]⟩

def stKO : StoreTable :=
  ⟨[[("h", .S "a"), ("score", .N 5), ("cat", .S "x"), ("extra", .S "full")]]⟩

def c8res : GLResult :=
  ⟨[[("h", .S "a"), ("score", .N 5), ("cat", .S "x"), ("extra", .S "full")]],
   none, false, true,
   [("h__eq", .dval (.S "a")), ("index", .dval (.S "cat-index")),
    ("cat__eq", .dval (.S "x"))]⟩

theorem c8_witness :
    getList scKO stKO [("h", "a"), ("cat", "x")] kwList = .ok c8res ∧
    c8res.scanned = false ∧
    pyget c8res.filtUsed "index" = some (.dval (.S "cat-index")) ∧
    scKO.indexes.find? (fun j => j.name = "cat-index") =
      some ⟨"cat-index", "cat", some "cat", .ident, true⟩ ∧
    ((∀ it ∈ c8res.objects, it ∈ stKO.rows) ∧
     (c8res.objects ≠ [] → c8res.batchGot = true)) :=
  ⟨rfl, rfl, rfl, rfl,
   c8_keys_only_batch_get scKO stKO [("h", "a"), ("cat", "x")] kwList
     ⟨"cat-index", "cat", some "cat", .ident, true⟩ c8res rfl rfl rfl rfl rfl⟩
